import Mathlib

/-
Verification of the buffer-mapping wire protocol of the dawn repository.

The repository's sources contain the wire unit tests
(src/tests/unittests/wire/WireBufferMappingTests.cpp) and two Vulkan backend
files (RenderPipelineVk.cpp, ShaderModuleVk.cpp).  The wire client/server
implementation itself (dawn_wire client Buffer proxy, MapRequestRegistry,
server shim) is not among the sources, so the protocol below is modelled from
the specification's component design (spec sections 3 to 7) and checked against
the behaviours the unit tests pin down.  The Vulkan destructors are embedded
directly from the source files.
-/

namespace DawnWire

/-- Status of an asynchronous buffer-map operation, mirroring
dawnBufferMapAsyncStatus: Success = 0, Error = 1, Unknown = 2.  Unknown is only
ever synthesized locally on the client. -/
inductive MapStatus where
  | success
  | error
  | unknown
deriving DecidableEq, Repr

/-- Direction of a map request: MapReadAsync or MapWriteAsync. -/
inductive MapMode where
  | read
  | write
deriving DecidableEq, Repr

/-- Modelled from the spec: the PendingMap record of the missing client wire
implementation.  A registry slot for one outstanding map request, keyed by
(bufferId, serial); it remembers the request parameters and the callback's
userdata. -/
structure PendingMap where
  bufferId : Nat
  serial : Nat
  offset : Nat
  size : Nat
  mode : MapMode
  userdata : Nat
deriving DecidableEq, Repr

/-- One user-visible callback invocation: which request it answered, the
status, and the data visible through the pointer argument (none models a null
pointer; some bytes models a pointer whose pointee holds those bytes at
invocation time). -/
structure CallbackRecord where
  bufferId : Nat
  serial : Nat
  userdata : Nat
  callStatus : MapStatus
  data : Option (List Nat)
deriving DecidableEq, Repr

/-- Client-visible buffer state from the spec data model. -/
inductive BufState where
  | unmapped
  | mapping
  | mapped
deriving DecidableEq, Repr

/-- Modelled from the spec: the ClientBuffer proxy of the missing client wire
implementation.  isError records that server-side creation failed (the test
fixture's errorBuffer); nextSerial is the per-buffer RequestSerial allocator;
staging is the client-side staging region of a successful write map. -/
structure ClientBuffer where
  id : Nat
  isError : Bool
  bufState : BufState
  nextSerial : Nat
  staging : Option (List Nat)
deriving DecidableEq, Repr

/-- Modelled from the spec: the client-to-server command frames of the wire
envelope that the buffer-mapping protocol uses. -/
inductive Command where
  | mapRead (bufferId serial offset size : Nat)
  | mapWrite (bufferId serial offset size : Nat)
  | unmapCmd (bufferId : Nat) (payload : Option (List Nat))
  | releaseCmd (bufferId : Nat)
deriving DecidableEq, Repr

/-- Modelled from the spec: a MapCompletionFrame travelling server to client,
carrying the request key, a status and (for read success) the mapped bytes. -/
structure CompletionFrame where
  bufferId : Nat
  serial : Nat
  frameStatus : MapStatus
  payload : List Nat
deriving DecidableEq, Repr

/-- Modelled from the spec: the ServerBuffer shim of the missing server wire
implementation.  contents is the native buffer's bytes, activeRequest the
serial of the request whose native map is current, writeMap the (offset, size)
of a pending write mapping, and nativeUnmaps counts how many native BufferUnmap
calls the server has issued for this buffer. -/
structure ServerBuffer where
  id : Nat
  contents : List Nat
  activeRequest : Option Nat
  mapped : Bool
  writeMap : Option (Nat × Nat)
  nativeUnmaps : Nat
deriving DecidableEq, Repr

/-- Modelled from the spec: the whole two-sided wire state.  outbound is the
client-to-server command queue drained by FlushClient; inbound is the
server-to-client completion queue drained by FlushServer (locally synthesized
completions are appended to it as well, so that the single delivery rule
dispatches them); log records every user callback invocation in order. -/
structure WireState where
  buffers : List ClientBuffer
  registry : List PendingMap
  log : List CallbackRecord
  outbound : List Command
  inbound : List CompletionFrame
  serverBuffers : List ServerBuffer
  wireErrored : Bool
deriving DecidableEq, Repr

/-- Look up a client buffer proxy by id. -/
def findBuffer (s : WireState) (b : Nat) : Option ClientBuffer :=
  s.buffers.find? (fun buf => buf.id == b)

/-- Apply an update to every client buffer with the given id. -/
def updateBuffer (bs : List ClientBuffer) (b : Nat)
    (f : ClientBuffer → ClientBuffer) : List ClientBuffer :=
  bs.map (fun buf => if buf.id == b then f buf else buf)

/-- Installing a request moves an unmapped buffer into the mapping state. -/
def stateAfterInstall : BufState → BufState
  | .unmapped => .mapping
  | st => st

/-- Modelled from the spec: MapReadAsync and MapWriteAsync of the missing
client implementation.  A fresh RequestSerial is allocated and a PendingMap is
installed in the registry.  For a buffer whose server-side creation failed,
client-local validation short-circuits: an Error completion is synthesized
locally (appended to the dispatch queue) and no command is sent.  Otherwise the
map request command is enqueued for the server. -/
def doMapAsync (s : WireState) (mo : MapMode) (b offset size u : Nat) :
    WireState :=
  match findBuffer s b with
  | none => s
  | some buf =>
    let ser := buf.nextSerial
    let pm : PendingMap := ⟨b, ser, offset, size, mo, u⟩
    let buffers := updateBuffer s.buffers b (fun x =>
      { x with nextSerial := x.nextSerial + 1,
               bufState := stateAfterInstall x.bufState })
    if buf.isError then
      { s with buffers := buffers,
               registry := s.registry ++ [pm],
               inbound := s.inbound ++ [⟨b, ser, .error, []⟩] }
    else
      { s with buffers := buffers,
               registry := s.registry ++ [pm],
               outbound := s.outbound ++
                 [match mo with
                  | .read => .mapRead b ser offset size
                  | .write => .mapWrite b ser offset size] }

/-- The Unknown callbacks synthesized when a list of pending requests is
cancelled, in registration order. -/
def unknownCallbacks (pms : List PendingMap) : List CallbackRecord :=
  pms.map (fun pm => ⟨pm.bufferId, pm.serial, pm.userdata, .unknown, none⟩)

/-- Modelled from the spec: Unmap of the missing client implementation.  Any
in-flight request on the buffer is cancelled (taken out of the registry, an
Unknown callback synthesized before Unmap returns).  For an ordinary buffer the
BufferUnmap command is sent, carrying the write staging region's bytes when one
exists; for an error buffer no wire frame is produced (spec section 9 makes
that case a wire-level no-op). -/
def doUnmap (s : WireState) (b : Nat) : WireState :=
  match findBuffer s b with
  | none => s
  | some buf =>
    let cancelled := s.registry.filter (fun pm => pm.bufferId == b)
    let kept := s.registry.filter (fun pm => pm.bufferId != b)
    if buf.isError then
      { s with registry := kept, log := s.log ++ unknownCallbacks cancelled }
    else
      { s with registry := kept,
               log := s.log ++ unknownCallbacks cancelled,
               buffers := updateBuffer s.buffers b (fun x =>
                 { x with bufState := .unmapped, staging := none }),
               outbound := s.outbound ++ [.unmapCmd b buf.staging] }

/-- Modelled from the spec: Release of the missing client implementation.
Every still-in-flight request is completed with Unknown immediately and
locally, then the proxy is dropped and the release frame enqueued; after this
returns no callback for the buffer may ever fire again. -/
def doRelease (s : WireState) (b : Nat) : WireState :=
  match findBuffer s b with
  | none => s
  | some _ =>
    let cancelled := s.registry.filter (fun pm => pm.bufferId == b)
    let kept := s.registry.filter (fun pm => pm.bufferId != b)
    { s with registry := kept,
             log := s.log ++ unknownCallbacks cancelled,
             buffers := s.buffers.filter (fun x => x.id != b),
             outbound := s.outbound ++ [.releaseCmd b] }

/-- The user writing bytes through the pointer of a successful write map:
replaces the staging region's contents (the region's size is fixed). -/
def doWriteStaging (s : WireState) (b : Nat) (bytes : List Nat) : WireState :=
  match findBuffer s b with
  | none => s
  | some buf =>
    match buf.staging with
    | none => s
    | some old =>
      if old.length == bytes.length then
        { s with buffers := updateBuffer s.buffers b (fun x =>
            { x with staging := some bytes }) }
      else s

/-- Look up a server buffer shim by id. -/
def findServerBuffer (sbs : List ServerBuffer) (b : Nat) :
    Option ServerBuffer :=
  sbs.find? (fun x => x.id == b)

/-- Apply an update to every server buffer with the given id. -/
def updateServerBuffer (sbs : List ServerBuffer) (b : Nat)
    (f : ServerBuffer → ServerBuffer) : List ServerBuffer :=
  sbs.map (fun x => if x.id == b then f x else x)

/-- The size bytes of a list starting at offset. -/
def listSlice (l : List Nat) (offset size : Nat) : List Nat :=
  (l.drop offset).take size

/-- Overwrite the bytes of a list starting at offset. -/
def writeAt (l : List Nat) (offset : Nat) (bytes : List Nat) : List Nat :=
  l.take offset ++ bytes ++ l.drop (offset + bytes.length)

/-- Modelled from the spec: the missing server wire implementation processing
one command.  Map requests are validated against the buffer's size and current
state; a validation failure answers Error immediately, otherwise the native
async map runs (synchronously in this deterministic model, so activeRequest
still equals the request's serial when the native map completes and the
completion frame is sent).  BufferUnmap writes a pending write payload back
into the native buffer, performs the native unmap and clears the mapping
state.  BufferRelease drops the shim.  Commands for an unknown (tombstoned or
never created) buffer id are dropped silently. -/
def serverStep (sbs : List ServerBuffer) (c : Command) :
    List ServerBuffer × List CompletionFrame :=
  match c with
  | .mapRead b ser offset size =>
    match findServerBuffer sbs b with
    | none => (sbs, [])
    | some sb =>
      if sb.activeRequest.isSome || sb.mapped ||
          decide (sb.contents.length < offset + size) then
        (sbs, [⟨b, ser, .error, []⟩])
      else
        (updateServerBuffer sbs b (fun x =>
           { x with activeRequest := some ser, mapped := true }),
         [⟨b, ser, .success, listSlice sb.contents offset size⟩])
  | .mapWrite b ser offset size =>
    match findServerBuffer sbs b with
    | none => (sbs, [])
    | some sb =>
      if sb.activeRequest.isSome || sb.mapped ||
          decide (sb.contents.length < offset + size) then
        (sbs, [⟨b, ser, .error, []⟩])
      else
        (updateServerBuffer sbs b (fun x =>
           { x with activeRequest := some ser, mapped := true,
                    writeMap := some (offset, size) }),
         [⟨b, ser, .success, []⟩])
  | .unmapCmd b payload =>
    match findServerBuffer sbs b with
    | none => (sbs, [])
    | some sb =>
      let contents :=
        match sb.writeMap, payload with
        | some (o, _), some bytes => writeAt sb.contents o bytes
        | _, _ => sb.contents
      (updateServerBuffer sbs b (fun x =>
         { x with contents := contents, activeRequest := none,
                  mapped := false, writeMap := none,
                  nativeUnmaps := x.nativeUnmaps + 1 }),
       [])
  | .releaseCmd b => (sbs.filter (fun x => x.id != b), [])

/-- The server processing a whole command queue in order, collecting the
completion frames it produces. -/
def serverRun (sbs : List ServerBuffer) :
    List Command → List ServerBuffer × List CompletionFrame
  | [] => (sbs, [])
  | c :: rest =>
    let p := serverStep sbs c
    let q := serverRun p.1 rest
    (q.1, p.2 ++ q.2)

/-- Modelled from the spec: FlushClient of the missing FlushLoop.  It drains
the outbound command queue into the server and appends the server's completion
frames to the inbound queue. -/
def doFlushClient (s : WireState) : WireState :=
  { s with serverBuffers := (serverRun s.serverBuffers s.outbound).1,
           outbound := [],
           inbound := s.inbound ++ (serverRun s.serverBuffers s.outbound).2 }

/-- Remove the first registry slot matching a request key, returning it. -/
def takeSlot : List PendingMap → Nat → Nat → Option PendingMap × List PendingMap
  | [], _, _ => (none, [])
  | pm :: rest, b, ser =>
    if pm.bufferId == b && pm.serial == ser then (some pm, rest)
    else ((takeSlot rest b ser).1, pm :: (takeSlot rest b ser).2)

/-- The data the callback's pointer argument exposes: the frame's bytes for a
successful read, the freshly zero-initialized staging region for a successful
write, and a null pointer otherwise. -/
def callbackData (mo : MapMode) (st : MapStatus) (payload : List Nat)
    (size : Nat) : Option (List Nat) :=
  match mo, st with
  | .read, .success => some payload
  | .write, .success => some (List.replicate size 0)
  | _, _ => none

/-- Modelled from the spec: the delivery rule of the missing
MapCompletionDispatcher.  The slot is taken out of the registry first (so a
reentrant Unmap or Release from inside the callback finds no PendingMap); a
frame with no matching slot is dropped silently; on a successful write the
zero-initialized staging region is allocated on the client. -/
def dispatchFrame (s : WireState) (f : CompletionFrame) : WireState :=
  match takeSlot s.registry f.bufferId f.serial with
  | (none, _) => s
  | (some pm, rest) =>
    let record : CallbackRecord :=
      ⟨f.bufferId, f.serial, pm.userdata, f.frameStatus,
       callbackData pm.mode f.frameStatus f.payload pm.size⟩
    let buffers :=
      match pm.mode, f.frameStatus with
      | .write, .success =>
        updateBuffer s.buffers f.bufferId (fun x =>
          { x with bufState := .mapped,
                   staging := some (List.replicate pm.size 0) })
      | _, .success =>
        updateBuffer s.buffers f.bufferId (fun x =>
          { x with bufState := .mapped })
      | _, _ => s.buffers
    { s with registry := rest, buffers := buffers, log := s.log ++ [record] }

/-- Dispatch a list of completion frames in order. -/
def dispatchAll (s : WireState) : List CompletionFrame → WireState
  | [] => s
  | f :: rest => dispatchAll (dispatchFrame s f) rest

/-- Modelled from the spec: FlushServer of the missing FlushLoop.  It drains
the inbound completion queue, dispatching every frame to the delivery rule. -/
def doFlushServer (s : WireState) : WireState :=
  dispatchAll { s with inbound := [] } s.inbound

/-- Modelled from the spec: wire teardown on a fatal decode error.  All
pending requests are drained with Unknown, both queues are dropped and the
sticky wire-errored flag is set. -/
def doTeardown (s : WireState) : WireState :=
  { s with registry := [],
           log := s.log ++ unknownCallbacks s.registry,
           outbound := [],
           inbound := [],
           wireErrored := true }

/-- The observable operations whose interleavings the protocol must survive:
the client map/unmap/release calls, the user writing through a mapped write
pointer, the two flush primitives, and wire teardown. -/
inductive Event where
  | mapReadAsync (bufferId offset size userdata : Nat)
  | mapWriteAsync (bufferId offset size userdata : Nat)
  | unmapBuffer (bufferId : Nat)
  | releaseBuffer (bufferId : Nat)
  | writeStaging (bufferId : Nat) (bytes : List Nat)
  | flushClient
  | flushServer
  | teardown
deriving DecidableEq, Repr

/-- One protocol step.  After teardown the wire-errored flag is sticky and
every further operation is a no-op. -/
def step (s : WireState) (e : Event) : WireState :=
  if s.wireErrored then s
  else
    match e with
    | .mapReadAsync b o sz u => doMapAsync s .read b o sz u
    | .mapWriteAsync b o sz u => doMapAsync s .write b o sz u
    | .unmapBuffer b => doUnmap s b
    | .releaseBuffer b => doRelease s b
    | .writeStaging b bytes => doWriteStaging s b bytes
    | .flushClient => doFlushClient s
    | .flushServer => doFlushServer s
    | .teardown => doTeardown s

/-- Run a sequence of protocol steps. -/
def run (s : WireState) : List Event → WireState
  | [] => s
  | e :: rest => run (step s e) rest

/-- How many callbacks in the log answered the request (b, ser). -/
def countCb (log : List CallbackRecord) (b ser : Nat) : Nat :=
  (log.filter (fun r => r.bufferId == b && r.serial == ser)).length

/-- How many registry slots carry the request key (b, ser). -/
def countSlots (reg : List PendingMap) (b ser : Nat) : Nat :=
  (reg.filter (fun pm => pm.bufferId == b && pm.serial == ser)).length

/-- Delivered-or-pending measure of one request: callbacks fired plus slots
still in the registry. -/
def reqCount (s : WireState) (b ser : Nat) : Nat :=
  countCb s.log b ser + countSlots s.registry b ser

/-- How many callbacks in the log belong to buffer b at all. -/
def countCbBuffer (log : List CallbackRecord) (b : Nat) : Nat :=
  (log.filter (fun r => r.bufferId == b)).length

/-- The request serial ser is in the past of every proxy for buffer b, so no
future install can reuse the key (b, ser). -/
def freshBound (s : WireState) (b ser : Nat) : Prop :=
  ∀ buf ∈ s.buffers, buf.id = b → ser < buf.nextSerial

/-- Bytes visible at (offset, size) of a server buffer. -/
def serverSlice (s : WireState) (b offset size : Nat) : List Nat :=
  match findServerBuffer s.serverBuffers b with
  | none => []
  | some sb => listSlice sb.contents offset size

/-- Native BufferUnmap calls the server has issued for a buffer. -/
def nativeUnmapCount (s : WireState) (b : Nat) : Nat :=
  match findServerBuffer s.serverBuffers b with
  | none => 0
  | some sb => sb.nativeUnmaps

/-- Little-endian decoding of a four-byte payload, for stating the tests'
pointee expectations. -/
def le32 : List Nat → Nat
  | [b0, b1, b2, b3] => b0 + 256 * b1 + 65536 * b2 + 16777216 * b3
  | _ => 0

/-- The test fixture's server-side buffer contents: the word at offset 40
holds 31337 in little-endian bytes. -/
def initServerContents : List Nat :=
  List.replicate 40 0 ++ [105, 122, 0, 0]

/-- Initial wire state mirroring the WireBufferMappingTests fixture: buffer 1
was created on both sides, buffer 2 failed server-side creation (the
errorBuffer). -/
def initState : WireState :=
  { buffers := [⟨1, false, .unmapped, 0, none⟩, ⟨2, true, .unmapped, 0, none⟩],
    registry := [],
    log := [],
    outbound := [],
    inbound := [],
    serverBuffers := [⟨1, initServerContents, none, false, none, 0⟩],
    wireErrored := false }

end DawnWire

namespace Vulkan

/-- A Vulkan handle modelled as a natural number; 0 plays the role of
VK_NULL_HANDLE. -/
def VK_NULL_HANDLE : Nat := 0

/-- The fenced deleter of the Vulkan backend: a queue of handles to be
destroyed once the GPU is known to no longer reference them. -/
structure FencedDeleter where
  queue : List Nat
deriving DecidableEq, Repr

/-- FencedDeleter DeleteWhenUnused: enqueue a handle for deferred
destruction. -/
def DeleteWhenUnused (d : FencedDeleter) (h : Nat) : FencedDeleter :=
  { queue := d.queue ++ [h] }

/-- The state a backend object destructor acts on: the object's stored
mHandle, the device's fenced deleter, and a record of handles destroyed
synchronously (which the destructors never touch). -/
structure DtorState where
  mHandle : Nat
  deleter : FencedDeleter
  destroyedNow : List Nat
deriving DecidableEq, Repr

/-- The RenderPipeline destructor from
src/backend/vulkan/RenderPipelineVk.cpp lines 233 to 238: if mHandle is not
VK_NULL_HANDLE, hand it to the fenced deleter via DeleteWhenUnused and set
mHandle to VK_NULL_HANDLE; otherwise do nothing. -/
def renderPipelineDtor (st : DtorState) : DtorState :=
  if st.mHandle ≠ VK_NULL_HANDLE then
    { st with deleter := DeleteWhenUnused st.deleter st.mHandle,
              mHandle := VK_NULL_HANDLE }
  else st

/-- The ShaderModule destructor from
src/dawn_native/vulkan/ShaderModuleVk.cpp lines 52 to 59: same reclamation
discipline as the render pipeline destructor. -/
def shaderModuleDtor (st : DtorState) : DtorState :=
  if st.mHandle ≠ VK_NULL_HANDLE then
    { st with deleter := DeleteWhenUnused st.deleter st.mHandle,
              mHandle := VK_NULL_HANDLE }
  else st

end Vulkan

namespace DawnWire

section CountingLemmas

lemma countCb_cons (r : CallbackRecord) (log : List CallbackRecord) (b ser : Nat) :
    countCb (r :: log) b ser =
      (if r.bufferId == b && r.serial == ser then 1 else 0) + countCb log b ser := by
  simp only [countCb, List.filter_cons]
  split <;> simp [Nat.add_comm]

lemma countSlots_cons (pm : PendingMap) (reg : List PendingMap) (b ser : Nat) :
    countSlots (pm :: reg) b ser =
      (if pm.bufferId == b && pm.serial == ser then 1 else 0) + countSlots reg b ser := by
  simp only [countSlots, List.filter_cons]
  split <;> simp [Nat.add_comm]

lemma countCb_append (l1 l2 : List CallbackRecord) (b ser : Nat) :
    countCb (l1 ++ l2) b ser = countCb l1 b ser + countCb l2 b ser := by
  simp [countCb, List.filter_append]

lemma countSlots_append (l1 l2 : List PendingMap) (b ser : Nat) :
    countSlots (l1 ++ l2) b ser = countSlots l1 b ser + countSlots l2 b ser := by
  simp [countSlots, List.filter_append]

lemma countCb_unknownCallbacks (pms : List PendingMap) (b ser : Nat) :
    countCb (unknownCallbacks pms) b ser = countSlots pms b ser := by
  induction pms with
  | nil => rfl
  | cons pm rest ih =>
    simp only [unknownCallbacks, List.map_cons] at *
    rw [countCb_cons, countSlots_cons, ih]

lemma countSlots_filter_split (reg : List PendingMap) (b0 b ser : Nat) :
    countSlots (reg.filter (fun pm => pm.bufferId != b0)) b ser +
      countSlots (reg.filter (fun pm => pm.bufferId == b0)) b ser =
      countSlots reg b ser := by
  induction reg with
  | nil => rfl
  | cons pm rest ih =>
    by_cases h : (pm.bufferId == b0) = true
    · have h1 : List.filter (fun q : PendingMap => q.bufferId != b0) (pm :: rest) =
          List.filter (fun q : PendingMap => q.bufferId != b0) rest := by
        simp [List.filter_cons, bne, h]
      have h2 : List.filter (fun q : PendingMap => q.bufferId == b0) (pm :: rest) =
          pm :: List.filter (fun q : PendingMap => q.bufferId == b0) rest := by
        simp [List.filter_cons, h]
      rw [h1, h2, countSlots_cons, countSlots_cons]
      omega
    · have h1 : List.filter (fun q : PendingMap => q.bufferId != b0) (pm :: rest) =
          pm :: List.filter (fun q : PendingMap => q.bufferId != b0) rest := by
        simp only [List.filter_cons, bne]
        simp [Bool.not_eq_true] at h
        simp [h]
      have h2 : List.filter (fun q : PendingMap => q.bufferId == b0) (pm :: rest) =
          List.filter (fun q : PendingMap => q.bufferId == b0) rest := by
        simp only [List.filter_cons]
        simp [Bool.not_eq_true] at h
        simp [h]
      rw [h1, h2, countSlots_cons, countSlots_cons]
      omega

lemma countSlots_toList_fst (o : Option PendingMap) (b ser : Nat) :
    countSlots o.toList b ser =
      match o with
      | none => 0
      | some pm => if pm.bufferId == b && pm.serial == ser then 1 else 0 := by
  cases o with
  | none => rfl
  | some pm => rw [Option.toList_some, countSlots_cons]; simp [countSlots]

lemma takeSlot_pos_fst (pm : PendingMap) (rest : List PendingMap) (b ser : Nat)
    (h : (pm.bufferId == b && pm.serial == ser) = true) :
    (takeSlot (pm :: rest) b ser).1 = some pm := by
  simp [takeSlot, h]

lemma takeSlot_pos_snd (pm : PendingMap) (rest : List PendingMap) (b ser : Nat)
    (h : (pm.bufferId == b && pm.serial == ser) = true) :
    (takeSlot (pm :: rest) b ser).2 = rest := by
  simp [takeSlot, h]

lemma takeSlot_neg_fst (pm : PendingMap) (rest : List PendingMap) (b ser : Nat)
    (h : ¬ (pm.bufferId == b && pm.serial == ser) = true) :
    (takeSlot (pm :: rest) b ser).1 = (takeSlot rest b ser).1 := by
  simp [takeSlot, h]

lemma takeSlot_neg_snd (pm : PendingMap) (rest : List PendingMap) (b ser : Nat)
    (h : ¬ (pm.bufferId == b && pm.serial == ser) = true) :
    (takeSlot (pm :: rest) b ser).2 = pm :: (takeSlot rest b ser).2 := by
  simp [takeSlot, h]

lemma takeSlot_count (reg : List PendingMap) (b ser b' ser' : Nat) :
    countSlots (takeSlot reg b ser).2 b' ser' +
      countSlots (takeSlot reg b ser).1.toList b' ser' =
      countSlots reg b' ser' := by
  induction reg with
  | nil => rfl
  | cons pm rest ih =>
    by_cases h : (pm.bufferId == b && pm.serial == ser) = true
    · rw [takeSlot_pos_fst pm rest b ser h, takeSlot_pos_snd pm rest b ser h,
          Option.toList_some, countSlots_cons pm [] b' ser',
          countSlots_cons pm rest b' ser']
      have hz : countSlots [] b' ser' = 0 := rfl
      rw [hz]
      omega
    · rw [takeSlot_neg_fst pm rest b ser h, takeSlot_neg_snd pm rest b ser h,
          countSlots_cons pm ((takeSlot rest b ser).2) b' ser',
          countSlots_cons pm rest b' ser']
      omega

lemma takeSlot_fst_some_key (reg : List PendingMap) (b ser : Nat) (pm : PendingMap)
    (h : (takeSlot reg b ser).1 = some pm) : pm.bufferId = b ∧ pm.serial = ser := by
  induction reg with
  | nil => simp [takeSlot] at h
  | cons q rest ih =>
    by_cases hq : (q.bufferId == b && q.serial == ser) = true
    · rw [takeSlot_pos_fst q rest b ser hq] at h
      obtain rfl := Option.some.inj h
      simp only [Bool.and_eq_true, beq_iff_eq] at hq
      exact hq
    · rw [takeSlot_neg_fst q rest b ser hq] at h
      exact ih h

lemma takeSlot_fst_mem (reg : List PendingMap) (b ser : Nat) (pm : PendingMap)
    (h : (takeSlot reg b ser).1 = some pm) : pm ∈ reg := by
  induction reg with
  | nil => simp [takeSlot] at h
  | cons q rest ih =>
    by_cases hq : (q.bufferId == b && q.serial == ser) = true
    · rw [takeSlot_pos_fst q rest b ser hq] at h
      obtain rfl := Option.some.inj h
      exact List.mem_cons_self _ _
    · rw [takeSlot_neg_fst q rest b ser hq] at h
      exact List.mem_cons_of_mem _ (ih h)

lemma takeSlot_snd_subset (reg : List PendingMap) (b ser : Nat) (q : PendingMap)
    (h : q ∈ (takeSlot reg b ser).2) : q ∈ reg := by
  induction reg with
  | nil => simp [takeSlot] at h
  | cons p rest ih =>
    by_cases hp : (p.bufferId == b && p.serial == ser) = true
    · rw [takeSlot_pos_snd p rest b ser hp] at h
      exact List.mem_cons_of_mem _ h
    · rw [takeSlot_neg_snd p rest b ser hp] at h
      rcases List.mem_cons.mp h with h1 | h1
      · exact h1 ▸ List.mem_cons_self _ _
      · exact List.mem_cons_of_mem _ (ih h1)

end CountingLemmas

section StepLemmas

lemma findBuffer_some {s : WireState} {b : Nat} {buf : ClientBuffer}
    (h : findBuffer s b = some buf) : buf ∈ s.buffers ∧ buf.id = b := by
  unfold findBuffer at h
  refine ⟨List.mem_of_find?_eq_some h, ?_⟩
  have h2 := List.find?_some h
  simpa using h2

lemma updateBuffer_mem {bs : List ClientBuffer} {b0 : Nat}
    {f : ClientBuffer → ClientBuffer} {buf : ClientBuffer}
    (h : buf ∈ updateBuffer bs b0 f) : ∃ x ∈ bs, buf = x ∨ buf = f x := by
  unfold updateBuffer at h
  obtain ⟨x, hx, hfx⟩ := List.mem_map.mp h
  by_cases hid : (x.id == b0) = true
  · exact ⟨x, hx, Or.inr (by rw [← hfx, if_pos hid])⟩
  · exact ⟨x, hx, Or.inl (by rw [← hfx, if_neg hid])⟩

lemma updateBuffer_mem_strong {bs : List ClientBuffer} {b0 : Nat}
    {f : ClientBuffer → ClientBuffer} {buf : ClientBuffer}
    (h : buf ∈ updateBuffer bs b0 f) :
    ∃ x ∈ bs, (x.id = b0 ∧ buf = f x) ∨ (x.id ≠ b0 ∧ buf = x) := by
  unfold updateBuffer at h
  obtain ⟨x, hx, hfx⟩ := List.mem_map.mp h
  by_cases hid : (x.id == b0) = true
  · exact ⟨x, hx, Or.inl ⟨by simpa using hid, by rw [← hfx, if_pos hid]⟩⟩
  · exact ⟨x, hx, Or.inr ⟨by simpa using hid, by rw [← hfx, if_neg hid]⟩⟩

lemma freshBound_updateBuffer {bs : List ClientBuffer} {b0 : Nat}
    {f : ClientBuffer → ClientBuffer} {b ser : Nat}
    (hid : ∀ x, (f x).id = x.id) (hns : ∀ x, x.nextSerial ≤ (f x).nextSerial)
    (h : ∀ buf ∈ bs, buf.id = b → ser < buf.nextSerial) :
    ∀ buf ∈ updateBuffer bs b0 f, buf.id = b → ser < buf.nextSerial := by
  intro buf hm hb
  obtain ⟨x, hx, hcase⟩ := updateBuffer_mem hm
  rcases hcase with h1 | h1
  · subst h1
    exact h buf hx hb
  · subst h1
    have hlt := h x hx (by rw [← hid x]; exact hb)
    exact lt_of_lt_of_le hlt (hns x)

lemma freshBound_doMapAsync (s : WireState) (mo : MapMode)
    (b0 offset size u b ser : Nat) (hf : freshBound s b ser) :
    freshBound (doMapAsync s mo b0 offset size u) b ser := by
  unfold doMapAsync
  cases hb : findBuffer s b0 with
  | none => exact hf
  | some buf =>
    dsimp only
    by_cases he : buf.isError = true
    · rw [if_pos he]
      exact freshBound_updateBuffer (fun x => rfl) (fun x => Nat.le_succ _) hf
    · rw [if_neg he]
      exact freshBound_updateBuffer (fun x => rfl) (fun x => Nat.le_succ _) hf

lemma reqCount_doMapAsync (s : WireState) (mo : MapMode)
    (b0 offset size u b ser : Nat) (hf : freshBound s b ser) :
    reqCount (doMapAsync s mo b0 offset size u) b ser = reqCount s b ser := by
  unfold doMapAsync
  cases hb : findBuffer s b0 with
  | none => rfl
  | some buf =>
    dsimp only
    have hkey : ((⟨b0, buf.nextSerial, offset, size, mo, u⟩ : PendingMap).bufferId == b &&
        (⟨b0, buf.nextSerial, offset, size, mo, u⟩ : PendingMap).serial == ser) = false := by
      obtain ⟨hmem, hid⟩ := findBuffer_some hb
      by_cases hbb : b0 = b
      · have hlt := hf buf hmem (hbb ▸ hid)
        simp only [Bool.and_eq_false_iff, beq_eq_false_iff_ne]
        right
        omega
      · simp only [Bool.and_eq_false_iff, beq_eq_false_iff_ne]
        left
        exact hbb
    have hone : countSlots [(⟨b0, buf.nextSerial, offset, size, mo, u⟩ : PendingMap)] b ser = 0 := by
      rw [countSlots_cons]
      simp [hkey, countSlots]
    by_cases he : buf.isError = true
    · rw [if_pos he]
      simp only [reqCount, countSlots_append, hone]
      omega
    · rw [if_neg he]
      simp only [reqCount, countSlots_append, hone]
      omega

lemma reqCount_doUnmap (s : WireState) (b0 b ser : Nat) :
    reqCount (doUnmap s b0) b ser = reqCount s b ser := by
  unfold doUnmap
  cases hb : findBuffer s b0 with
  | none => rfl
  | some buf =>
    dsimp only
    have hsplit := countSlots_filter_split s.registry b0 b ser
    have hcb := countCb_unknownCallbacks (s.registry.filter (fun pm => pm.bufferId == b0)) b ser
    by_cases he : buf.isError = true
    · rw [if_pos he]
      simp only [reqCount, countCb_append, hcb]
      omega
    · rw [if_neg he]
      simp only [reqCount, countCb_append, hcb]
      omega

lemma reqCount_doRelease (s : WireState) (b0 b ser : Nat) :
    reqCount (doRelease s b0) b ser = reqCount s b ser := by
  unfold doRelease
  cases hb : findBuffer s b0 with
  | none => rfl
  | some buf =>
    dsimp only
    have hsplit := countSlots_filter_split s.registry b0 b ser
    have hcb := countCb_unknownCallbacks (s.registry.filter (fun pm => pm.bufferId == b0)) b ser
    simp only [reqCount, countCb_append, hcb]
    omega

lemma reqCount_doWriteStaging (s : WireState) (b0 : Nat) (bytes : List Nat)
    (b ser : Nat) : reqCount (doWriteStaging s b0 bytes) b ser = reqCount s b ser := by
  unfold doWriteStaging
  cases hb : findBuffer s b0 with
  | none => rfl
  | some buf =>
    dsimp only
    cases hst : buf.staging with
    | none => rfl
    | some old =>
      dsimp only
      by_cases hl : (old.length == bytes.length) = true
      · rw [if_pos hl]
        rfl
      · rw [if_neg hl]

lemma reqCount_doFlushClient (s : WireState) (b ser : Nat) :
    reqCount (doFlushClient s) b ser = reqCount s b ser := rfl

lemma reqCount_dispatchFrame (s : WireState) (f : CompletionFrame) (b ser : Nat) :
    reqCount (dispatchFrame s f) b ser = reqCount s b ser := by
  unfold dispatchFrame
  cases htake : takeSlot s.registry f.bufferId f.serial with
  | mk o rest =>
    cases o with
    | none => rfl
    | some pm =>
      have hcount := takeSlot_count s.registry f.bufferId f.serial b ser
      rw [htake] at hcount
      simp only [Option.toList_some] at hcount
      obtain ⟨hkb, hks⟩ := takeSlot_fst_some_key s.registry f.bufferId f.serial pm
        (by rw [htake])
      have hrec : countCb [(⟨f.bufferId, f.serial, pm.userdata, f.frameStatus,
          callbackData pm.mode f.frameStatus f.payload pm.size⟩ : CallbackRecord)] b ser =
          countSlots [pm] b ser := by
        rw [countCb_cons, countSlots_cons]
        simp only [countCb, countSlots, List.filter_nil, List.length_nil]
        rw [hkb, hks]
      simp only [reqCount, countCb_append]
      rw [hrec]
      rw [countSlots_cons] at hcount ⊢
      simp only [countSlots, List.filter_nil, List.length_nil] at hcount ⊢
      omega

lemma reqCount_dispatchAll (s : WireState) (fs : List CompletionFrame) (b ser : Nat) :
    reqCount (dispatchAll s fs) b ser = reqCount s b ser := by
  induction fs generalizing s with
  | nil => rfl
  | cons f rest ih =>
    simp only [dispatchAll]
    rw [ih, reqCount_dispatchFrame]

lemma reqCount_doFlushServer (s : WireState) (b ser : Nat) :
    reqCount (doFlushServer s) b ser = reqCount s b ser := by
  unfold doFlushServer
  rw [reqCount_dispatchAll]
  rfl

lemma reqCount_doTeardown (s : WireState) (b ser : Nat) :
    reqCount (doTeardown s) b ser = reqCount s b ser := by
  unfold doTeardown
  simp only [reqCount, countCb_append, countCb_unknownCallbacks]
  simp [countSlots]

lemma reqCount_step (s : WireState) (e : Event) (b ser : Nat)
    (hf : freshBound s b ser) : reqCount (step s e) b ser = reqCount s b ser := by
  unfold step
  by_cases herr : s.wireErrored = true
  · rw [if_pos herr]
  · rw [if_neg herr]
    cases e with
    | mapReadAsync b0 o sz u => exact reqCount_doMapAsync s .read b0 o sz u b ser hf
    | mapWriteAsync b0 o sz u => exact reqCount_doMapAsync s .write b0 o sz u b ser hf
    | unmapBuffer b0 => exact reqCount_doUnmap s b0 b ser
    | releaseBuffer b0 => exact reqCount_doRelease s b0 b ser
    | writeStaging b0 bytes => exact reqCount_doWriteStaging s b0 bytes b ser
    | flushClient => exact reqCount_doFlushClient s b ser
    | flushServer => exact reqCount_doFlushServer s b ser
    | teardown => exact reqCount_doTeardown s b ser

lemma freshBound_doUnmap (s : WireState) (b0 b ser : Nat)
    (hf : freshBound s b ser) : freshBound (doUnmap s b0) b ser := by
  unfold doUnmap
  cases hb : findBuffer s b0 with
  | none => exact hf
  | some buf =>
    dsimp only
    by_cases he : buf.isError = true
    · rw [if_pos he]
      exact hf
    · rw [if_neg he]
      exact freshBound_updateBuffer (fun x => rfl) (fun x => Nat.le_refl _) hf

lemma freshBound_doRelease (s : WireState) (b0 b ser : Nat)
    (hf : freshBound s b ser) : freshBound (doRelease s b0) b ser := by
  unfold doRelease
  cases hb : findBuffer s b0 with
  | none => exact hf
  | some buf =>
    dsimp only
    intro bufx hm hbx
    exact hf bufx (List.mem_of_mem_filter hm) hbx

lemma freshBound_doWriteStaging (s : WireState) (b0 : Nat) (bytes : List Nat)
    (b ser : Nat) (hf : freshBound s b ser) :
    freshBound (doWriteStaging s b0 bytes) b ser := by
  unfold doWriteStaging
  cases hb : findBuffer s b0 with
  | none => exact hf
  | some buf =>
    dsimp only
    cases hst : buf.staging with
    | none => exact hf
    | some old =>
      dsimp only
      by_cases hl : (old.length == bytes.length) = true
      · rw [if_pos hl]
        exact freshBound_updateBuffer (fun x => rfl) (fun x => Nat.le_refl _) hf
      · rw [if_neg hl]
        exact hf

lemma freshBound_dispatchFrame (s : WireState) (f : CompletionFrame)
    (b ser : Nat) (hf : freshBound s b ser) :
    freshBound (dispatchFrame s f) b ser := by
  unfold dispatchFrame
  cases htake : takeSlot s.registry f.bufferId f.serial with
  | mk o rest =>
    cases o with
    | none => exact hf
    | some pm =>
      dsimp only
      cases pm.mode <;> cases f.frameStatus <;>
        first
          | exact hf
          | exact freshBound_updateBuffer (fun x => rfl) (fun x => Nat.le_refl _) hf

lemma freshBound_dispatchAll (s : WireState) (fs : List CompletionFrame)
    (b ser : Nat) (hf : freshBound s b ser) :
    freshBound (dispatchAll s fs) b ser := by
  induction fs generalizing s with
  | nil => exact hf
  | cons f rest ih =>
    exact ih (dispatchFrame s f) (freshBound_dispatchFrame s f b ser hf)

lemma freshBound_step (s : WireState) (e : Event) (b ser : Nat)
    (hf : freshBound s b ser) : freshBound (step s e) b ser := by
  unfold step
  by_cases herr : s.wireErrored = true
  · rw [if_pos herr]
    exact hf
  · rw [if_neg herr]
    cases e with
    | mapReadAsync b0 o sz u => exact freshBound_doMapAsync s .read b0 o sz u b ser hf
    | mapWriteAsync b0 o sz u => exact freshBound_doMapAsync s .write b0 o sz u b ser hf
    | unmapBuffer b0 => exact freshBound_doUnmap s b0 b ser hf
    | releaseBuffer b0 => exact freshBound_doRelease s b0 b ser hf
    | writeStaging b0 bytes => exact freshBound_doWriteStaging s b0 bytes b ser hf
    | flushClient => exact hf
    | flushServer => exact freshBound_dispatchAll _ _ b ser hf
    | teardown => exact hf

lemma wireErrored_doMapAsync (s : WireState) (mo : MapMode) (b0 o sz u : Nat) :
    (doMapAsync s mo b0 o sz u).wireErrored = s.wireErrored := by
  unfold doMapAsync
  cases hb : findBuffer s b0 with
  | none => rfl
  | some buf =>
    dsimp only
    by_cases he : buf.isError = true
    · rw [if_pos he]
    · rw [if_neg he]

lemma wireErrored_doUnmap (s : WireState) (b0 : Nat) :
    (doUnmap s b0).wireErrored = s.wireErrored := by
  unfold doUnmap
  cases hb : findBuffer s b0 with
  | none => rfl
  | some buf =>
    dsimp only
    by_cases he : buf.isError = true
    · rw [if_pos he]
    · rw [if_neg he]

lemma wireErrored_doRelease (s : WireState) (b0 : Nat) :
    (doRelease s b0).wireErrored = s.wireErrored := by
  unfold doRelease
  cases hb : findBuffer s b0 with
  | none => rfl
  | some buf => rfl

lemma wireErrored_doWriteStaging (s : WireState) (b0 : Nat) (bytes : List Nat) :
    (doWriteStaging s b0 bytes).wireErrored = s.wireErrored := by
  unfold doWriteStaging
  cases hb : findBuffer s b0 with
  | none => rfl
  | some buf =>
    dsimp only
    cases hst : buf.staging with
    | none => rfl
    | some old =>
      dsimp only
      by_cases hl : (old.length == bytes.length) = true
      · rw [if_pos hl]
      · rw [if_neg hl]

lemma wireErrored_dispatchFrame (s : WireState) (f : CompletionFrame) :
    (dispatchFrame s f).wireErrored = s.wireErrored := by
  unfold dispatchFrame
  cases htake : takeSlot s.registry f.bufferId f.serial with
  | mk o rest =>
    cases o with
    | none => rfl
    | some pm => rfl

lemma wireErrored_dispatchAll (s : WireState) (fs : List CompletionFrame) :
    (dispatchAll s fs).wireErrored = s.wireErrored := by
  induction fs generalizing s with
  | nil => rfl
  | cons f rest ih =>
    simp only [dispatchAll]
    rw [ih, wireErrored_dispatchFrame]

lemma wireErrored_step_ne_teardown (s : WireState) (e : Event)
    (hne : e ≠ Event.teardown) : (step s e).wireErrored = s.wireErrored := by
  unfold step
  by_cases herr : s.wireErrored = true
  · rw [if_pos herr]
  · rw [if_neg herr]
    cases e with
    | mapReadAsync b0 o sz u => exact wireErrored_doMapAsync s .read b0 o sz u
    | mapWriteAsync b0 o sz u => exact wireErrored_doMapAsync s .write b0 o sz u
    | unmapBuffer b0 => exact wireErrored_doUnmap s b0
    | releaseBuffer b0 => exact wireErrored_doRelease s b0
    | writeStaging b0 bytes => exact wireErrored_doWriteStaging s b0 bytes
    | flushClient => rfl
    | flushServer => exact wireErrored_dispatchAll _ _
    | teardown => exact absurd rfl hne

lemma step_errored (s : WireState) (e : Event) (h : s.wireErrored = true) :
    step s e = s := by
  unfold step
  rw [if_pos h]

lemma run_errored (s : WireState) (es : List Event) (h : s.wireErrored = true) :
    run s es = s := by
  induction es with
  | nil => rfl
  | cons e rest ih =>
    simp only [run, step_errored s e h]
    exact ih

lemma step_teardown_not_errored (s : WireState) (h : ¬ s.wireErrored = true) :
    step s Event.teardown = doTeardown s := by
  unfold step
  rw [if_neg h]

lemma reqCount_run (s : WireState) (es : List Event) (b ser : Nat)
    (hf : freshBound s b ser) :
    reqCount (run s es) b ser = reqCount s b ser ∧ freshBound (run s es) b ser := by
  induction es generalizing s with
  | nil => exact ⟨rfl, hf⟩
  | cons e rest ih =>
    obtain ⟨h1, h2⟩ := ih (step s e) (freshBound_step s e b ser hf)
    exact ⟨by rw [run, h1, reqCount_step s e b ser hf], h2⟩

lemma run_teardown_count (es : List Event) (b ser : Nat) :
    ∀ s : WireState, reqCount s b ser = 1 → freshBound s b ser →
      s.wireErrored = false → Event.teardown ∈ es →
      countCb (run s es).log b ser = 1 := by
  induction es with
  | nil => intro s _ _ _ hmem; exact absurd hmem (List.not_mem_nil _)
  | cons e rest ih =>
    intro s hone hf herr hmem
    by_cases hte : e = Event.teardown
    · subst hte
      have hstep : step s Event.teardown = doTeardown s :=
        step_teardown_not_errored s (by rw [herr]; exact Bool.false_ne_true)
      have hcnt : reqCount (step s Event.teardown) b ser = 1 := by
        rw [reqCount_step s _ b ser hf]; exact hone
      have hreg : (step s Event.teardown).registry = [] := by rw [hstep]; rfl
      have hcb : countCb (step s Event.teardown).log b ser = 1 := by
        have := hcnt
        rw [reqCount, hreg] at this
        simpa [countSlots] using this
      have herr2 : (step s Event.teardown).wireErrored = true := by rw [hstep]; rfl
      rw [run, run_errored _ rest herr2]
      exact hcb
    · have hmem2 : Event.teardown ∈ rest := by
        rcases List.mem_cons.mp hmem with h | h
        · exact absurd h.symm hte
        · exact h
      have hcnt : reqCount (step s e) b ser = 1 := by
        rw [reqCount_step s e b ser hf]; exact hone
      have herr2 : (step s e).wireErrored = false := by
        rw [wireErrored_step_ne_teardown s e hte]; exact herr
      exact ih (step s e) hcnt (freshBound_step s e b ser hf) herr2 hmem2

lemma doMapAsync_install (s : WireState) (mo : MapMode) (b offset size u : Nat)
    (buf : ClientBuffer) (hb : findBuffer s b = some buf)
    (hAll : ∀ buf' ∈ s.buffers, buf'.id = b → buf'.nextSerial = buf.nextSerial) :
    reqCount (doMapAsync s mo b offset size u) b buf.nextSerial =
        reqCount s b buf.nextSerial + 1 ∧
      freshBound (doMapAsync s mo b offset size u) b buf.nextSerial := by
  unfold doMapAsync
  rw [hb]
  dsimp only
  have hone : countSlots [(⟨b, buf.nextSerial, offset, size, mo, u⟩ : PendingMap)]
      b buf.nextSerial = 1 := by
    rw [countSlots_cons]
    simp [countSlots]
  have hfresh : ∀ bufx ∈ updateBuffer s.buffers b (fun x =>
      { x with nextSerial := x.nextSerial + 1,
               bufState := stateAfterInstall x.bufState }),
      bufx.id = b → buf.nextSerial < bufx.nextSerial := by
    intro bufx hm hbx
    obtain ⟨x, hx, hcase⟩ := updateBuffer_mem_strong hm
    rcases hcase with ⟨hxid, h1⟩ | ⟨hxid, h1⟩
    · have hxser : x.nextSerial = buf.nextSerial := hAll x hx hxid
      rw [h1]
      simp only
      omega
    · exact absurd (by rw [← h1]; exact hbx) hxid
  constructor
  · by_cases he : buf.isError = true
    · rw [if_pos he]
      simp only [reqCount, countSlots_append, hone]
      omega
    · rw [if_neg he]
      simp only [reqCount, countSlots_append, hone]
      omega
  · by_cases he : buf.isError = true
    · rw [if_pos he]
      exact hfresh
    · rw [if_neg he]
      exact hfresh

lemma exactly_once_aux (s : WireState) (mo : MapMode) (b offset size u : Nat)
    (buf : ClientBuffer) (es : List Event)
    (herr : s.wireErrored = false)
    (hb : findBuffer s b = some buf)
    (hclean : reqCount s b buf.nextSerial = 0)
    (hAll : ∀ buf' ∈ s.buffers, buf'.id = b → buf'.nextSerial = buf.nextSerial) :
    countCb (run (doMapAsync s mo b offset size u) es).log b buf.nextSerial +
        countSlots (run (doMapAsync s mo b offset size u) es).registry
          b buf.nextSerial = 1 ∧
      (Event.teardown ∈ es →
        countCb (run (doMapAsync s mo b offset size u) es).log b buf.nextSerial = 1) := by
  obtain ⟨hinc, hfresh⟩ := doMapAsync_install s mo b offset size u buf hb hAll
  have hone : reqCount (doMapAsync s mo b offset size u) b buf.nextSerial = 1 := by
    rw [hinc, hclean]
  obtain ⟨hrun, _⟩ := reqCount_run (doMapAsync s mo b offset size u) es
    b buf.nextSerial hfresh
  constructor
  · rw [← reqCount]
    rw [hrun]
    exact hone
  · intro hmem
    exact run_teardown_count es b buf.nextSerial _ hone hfresh
      (by rw [wireErrored_doMapAsync]; exact herr) hmem

end StepLemmas

/-- C1: For every MapReadAsync or MapWriteAsync call, the user callback
associated with that call's userdata is invoked exactly once, under every
interleaving of Unmap, Release, FlushClient, FlushServer, and wire teardown:
no request's callback is dropped, and none fires a second time.  Formally:
after installing the request (key (b, buf.nextSerial)), every continuation of
the protocol keeps callbacks-fired plus slots-pending equal to one, so the
callback count never exceeds one, equals one as soon as the slot is gone, and
a teardown in the continuation forces exactly one callback. -/
theorem mapAsync_callback_exactly_once
    (s : WireState) (emap : Event) (b offset size u : Nat) (buf : ClientBuffer)
    (es : List Event)
    (hmap : emap = Event.mapReadAsync b offset size u ∨
            emap = Event.mapWriteAsync b offset size u)
    (herr : s.wireErrored = false)
    (hb : findBuffer s b = some buf)
    (hclean : reqCount s b buf.nextSerial = 0)
    (hAll : ∀ buf' ∈ s.buffers, buf'.id = b → buf'.nextSerial = buf.nextSerial) :
    countCb (run (step s emap) es).log b buf.nextSerial +
        countSlots (run (step s emap) es).registry b buf.nextSerial = 1 ∧
      countCb (run (step s emap) es).log b buf.nextSerial ≤ 1 ∧
      (countSlots (run (step s emap) es).registry b buf.nextSerial = 0 →
        countCb (run (step s emap) es).log b buf.nextSerial = 1) ∧
      (Event.teardown ∈ es →
        countCb (run (step s emap) es).log b buf.nextSerial = 1) := by
  have hnerr : ¬ s.wireErrored = true := by rw [herr]; exact Bool.false_ne_true
  rcases hmap with rfl | rfl
  · have hstep : step s (Event.mapReadAsync b offset size u) =
        doMapAsync s .read b offset size u := by
      unfold step
      rw [if_neg hnerr]
    rw [hstep]
    obtain ⟨h1, h2⟩ := exactly_once_aux s .read b offset size u buf es herr hb hclean hAll
    exact ⟨h1, by omega, by omega, h2⟩
  · have hstep : step s (Event.mapWriteAsync b offset size u) =
        doMapAsync s .write b offset size u := by
      unfold step
      rw [if_neg hnerr]
    rw [hstep]
    obtain ⟨h1, h2⟩ := exactly_once_aux s .write b offset size u buf es herr hb hclean hAll
    exact ⟨h1, by omega, by omega, h2⟩

/-- Witness for C1: the happy-read request on the test fixture, continued by a
flush and a wire teardown, fires its callback exactly once. -/
theorem mapAsync_callback_exactly_once_witness :
    (initState.wireErrored = false) ∧
    (findBuffer initState 1 = some ⟨1, false, .unmapped, 0, none⟩) ∧
    (reqCount initState 1 0 = 0) ∧
    (countCb (run (step initState (.mapReadAsync 1 40 4 8653))
          [.flushClient, .teardown]).log 1 0 +
        countSlots (run (step initState (.mapReadAsync 1 40 4 8653))
          [.flushClient, .teardown]).registry 1 0 = 1 ∧
      countCb (run (step initState (.mapReadAsync 1 40 4 8653))
          [.flushClient, .teardown]).log 1 0 ≤ 1 ∧
      (countSlots (run (step initState (.mapReadAsync 1 40 4 8653))
          [.flushClient, .teardown]).registry 1 0 = 0 →
        countCb (run (step initState (.mapReadAsync 1 40 4 8653))
          [.flushClient, .teardown]).log 1 0 = 1) ∧
      (Event.teardown ∈ ([.flushClient, .teardown] : List Event) →
        countCb (run (step initState (.mapReadAsync 1 40 4 8653))
          [.flushClient, .teardown]).log 1 0 = 1)) :=
  ⟨by decide, by decide, by decide,
   mapAsync_callback_exactly_once initState (.mapReadAsync 1 40 4 8653)
     1 40 4 8653 ⟨1, false, .unmapped, 0, none⟩ [.flushClient, .teardown]
     (Or.inl rfl) (by decide) (by decide) (by decide) (by decide)⟩

section ReleaseLemmas

/-- After a buffer's proxy is gone, no proxy and no registry slot mentions its
id; this is the state Release leaves behind. -/
def BufGone (s : WireState) (b : Nat) : Prop :=
  (∀ buf ∈ s.buffers, buf.id ≠ b) ∧ (∀ pm ∈ s.registry, pm.bufferId ≠ b)

lemma countCbBuffer_cons (r : CallbackRecord) (log : List CallbackRecord) (b : Nat) :
    countCbBuffer (r :: log) b =
      (if r.bufferId == b then 1 else 0) + countCbBuffer log b := by
  simp only [countCbBuffer, List.filter_cons]
  split <;> simp [Nat.add_comm]

lemma countCbBuffer_append (l1 l2 : List CallbackRecord) (b : Nat) :
    countCbBuffer (l1 ++ l2) b = countCbBuffer l1 b + countCbBuffer l2 b := by
  simp [countCbBuffer, List.filter_append]

lemma countCbBuffer_unknown_zero (pms : List PendingMap) (b : Nat)
    (h : ∀ pm ∈ pms, pm.bufferId ≠ b) :
    countCbBuffer (unknownCallbacks pms) b = 0 := by
  induction pms with
  | nil => rfl
  | cons pm rest ih =>
    simp only [unknownCallbacks, List.map_cons]
    rw [countCbBuffer_cons]
    have h1 : (pm.bufferId == b) = false := by
      simp only [beq_eq_false_iff_ne]
      exact h pm (List.mem_cons_self _ _)
    rw [h1]
    simp only [if_neg Bool.false_ne_true]
    have := ih (fun q hq => h q (List.mem_cons_of_mem _ hq))
    simp only [unknownCallbacks] at this
    omega

lemma findBuffer_none_of_gone {s : WireState} {b : Nat}
    (h : ∀ buf ∈ s.buffers, buf.id ≠ b) : findBuffer s b = none := by
  unfold findBuffer
  rw [List.find?_eq_none]
  intro x hx
  simp only [beq_eq_false_iff_ne, ne_eq, Bool.not_eq_true]
  simpa using h x hx

lemma updateBuffer_gone {bs : List ClientBuffer} {b0 b : Nat}
    {f : ClientBuffer → ClientBuffer} (hid : ∀ x, (f x).id = x.id)
    (h : ∀ buf ∈ bs, buf.id ≠ b) :
    ∀ buf ∈ updateBuffer bs b0 f, buf.id ≠ b := by
  intro buf hm
  obtain ⟨x, hx, hcase⟩ := updateBuffer_mem hm
  rcases hcase with h1 | h1
  · rw [h1]; exact h x hx
  · rw [h1, hid x]; exact h x hx

lemma bufGone_doMapAsync (s : WireState) (mo : MapMode) (b0 o sz u b : Nat)
    (h : BufGone s b) :
    BufGone (doMapAsync s mo b0 o sz u) b ∧
      countCbBuffer (doMapAsync s mo b0 o sz u).log b = countCbBuffer s.log b := by
  obtain ⟨h1, h2⟩ := h
  unfold doMapAsync
  cases hb : findBuffer s b0 with
  | none => exact ⟨⟨h1, h2⟩, rfl⟩
  | some buf =>
    dsimp only
    have hb0 : b0 ≠ b := by
      obtain ⟨hmem, hid⟩ := findBuffer_some hb
      intro hcontra
      exact h1 buf hmem (hcontra ▸ hid)
    have hreg : ∀ pm ∈ s.registry ++
        [(⟨b0, buf.nextSerial, o, sz, mo, u⟩ : PendingMap)], pm.bufferId ≠ b := by
      intro pm hm
      rcases List.mem_append.mp hm with hm1 | hm1
      · exact h2 pm hm1
      · rcases List.mem_singleton.mp hm1 with rfl
        exact hb0
    have hbufs := @updateBuffer_gone s.buffers b0 b
      (fun x => { x with nextSerial := x.nextSerial + 1,
                         bufState := stateAfterInstall x.bufState })
      (fun x => rfl) h1
    by_cases he : buf.isError = true
    · rw [if_pos he]
      exact ⟨⟨hbufs, hreg⟩, rfl⟩
    · rw [if_neg he]
      exact ⟨⟨hbufs, hreg⟩, rfl⟩

lemma bufGone_doUnmap (s : WireState) (b0 b : Nat) (h : BufGone s b) :
    BufGone (doUnmap s b0) b ∧
      countCbBuffer (doUnmap s b0).log b = countCbBuffer s.log b := by
  obtain ⟨h1, h2⟩ := h
  unfold doUnmap
  cases hb : findBuffer s b0 with
  | none => exact ⟨⟨h1, h2⟩, rfl⟩
  | some buf =>
    dsimp only
    have hreg : ∀ pm ∈ s.registry.filter (fun pm => pm.bufferId != b0),
        pm.bufferId ≠ b := fun pm hm => h2 pm (List.mem_of_mem_filter hm)
    have hcancel : countCbBuffer
        (unknownCallbacks (s.registry.filter (fun pm => pm.bufferId == b0))) b = 0 :=
      countCbBuffer_unknown_zero _ b
        (fun pm hm => h2 pm (List.mem_of_mem_filter hm))
    have hlog : countCbBuffer (s.log ++
        unknownCallbacks (s.registry.filter (fun pm => pm.bufferId == b0))) b =
        countCbBuffer s.log b := by
      rw [countCbBuffer_append, hcancel]
      omega
    by_cases he : buf.isError = true
    · rw [if_pos he]
      exact ⟨⟨h1, hreg⟩, hlog⟩
    · rw [if_neg he]
      refine ⟨⟨updateBuffer_gone (fun x => rfl) h1, hreg⟩, hlog⟩

lemma bufGone_doRelease (s : WireState) (b0 b : Nat) (h : BufGone s b) :
    BufGone (doRelease s b0) b ∧
      countCbBuffer (doRelease s b0).log b = countCbBuffer s.log b := by
  obtain ⟨h1, h2⟩ := h
  unfold doRelease
  cases hb : findBuffer s b0 with
  | none => exact ⟨⟨h1, h2⟩, rfl⟩
  | some buf =>
    dsimp only
    have hreg : ∀ pm ∈ s.registry.filter (fun pm => pm.bufferId != b0),
        pm.bufferId ≠ b := fun pm hm => h2 pm (List.mem_of_mem_filter hm)
    have hcancel : countCbBuffer
        (unknownCallbacks (s.registry.filter (fun pm => pm.bufferId == b0))) b = 0 :=
      countCbBuffer_unknown_zero _ b
        (fun pm hm => h2 pm (List.mem_of_mem_filter hm))
    have hlog : countCbBuffer (s.log ++
        unknownCallbacks (s.registry.filter (fun pm => pm.bufferId == b0))) b =
        countCbBuffer s.log b := by
      rw [countCbBuffer_append, hcancel]
      omega
    refine ⟨⟨fun buf' hm => h1 buf' (List.mem_of_mem_filter hm), hreg⟩, hlog⟩

lemma bufGone_doWriteStaging (s : WireState) (b0 : Nat) (bytes : List Nat)
    (b : Nat) (h : BufGone s b) :
    BufGone (doWriteStaging s b0 bytes) b ∧
      countCbBuffer (doWriteStaging s b0 bytes).log b = countCbBuffer s.log b := by
  obtain ⟨h1, h2⟩ := h
  unfold doWriteStaging
  cases hb : findBuffer s b0 with
  | none => exact ⟨⟨h1, h2⟩, rfl⟩
  | some buf =>
    dsimp only
    cases hst : buf.staging with
    | none => exact ⟨⟨h1, h2⟩, rfl⟩
    | some old =>
      dsimp only
      by_cases hl : (old.length == bytes.length) = true
      · rw [if_pos hl]
        exact ⟨⟨updateBuffer_gone (fun x => rfl) h1, h2⟩, rfl⟩
      · rw [if_neg hl]
        exact ⟨⟨h1, h2⟩, rfl⟩

lemma bufGone_dispatchFrame (s : WireState) (f : CompletionFrame) (b : Nat)
    (h : BufGone s b) :
    BufGone (dispatchFrame s f) b ∧
      countCbBuffer (dispatchFrame s f).log b = countCbBuffer s.log b := by
  obtain ⟨h1, h2⟩ := h
  unfold dispatchFrame
  cases htake : takeSlot s.registry f.bufferId f.serial with
  | mk o rest =>
    cases o with
    | none => exact ⟨⟨h1, h2⟩, rfl⟩
    | some pm =>
      dsimp only
      have hpmem : pm ∈ s.registry :=
        takeSlot_fst_mem s.registry f.bufferId f.serial pm (by rw [htake])
      have hk := takeSlot_fst_some_key s.registry f.bufferId f.serial pm (by rw [htake])
      have hfb : f.bufferId ≠ b := by rw [← hk.1]; exact h2 pm hpmem
      have hreg : ∀ q ∈ rest, q.bufferId ≠ b := by
        intro q hq
        exact h2 q (takeSlot_snd_subset s.registry f.bufferId f.serial q
          (by rw [htake]; exact hq))
      have hlog : countCbBuffer (s.log ++
          [(⟨f.bufferId, f.serial, pm.userdata, f.frameStatus,
            callbackData pm.mode f.frameStatus f.payload pm.size⟩ : CallbackRecord)]) b =
          countCbBuffer s.log b := by
        rw [countCbBuffer_append, countCbBuffer_cons]
        have : (f.bufferId == b) = false := by simpa using hfb
        rw [this]
        simp [countCbBuffer]
      refine ⟨⟨?_, hreg⟩, hlog⟩
      cases pm.mode <;> cases f.frameStatus <;>
        first
          | exact h1
          | exact updateBuffer_gone (fun x => rfl) h1

lemma bufGone_dispatchAll (s : WireState) (fs : List CompletionFrame) (b : Nat)
    (h : BufGone s b) :
    BufGone (dispatchAll s fs) b ∧
      countCbBuffer (dispatchAll s fs).log b = countCbBuffer s.log b := by
  induction fs generalizing s with
  | nil => exact ⟨h, rfl⟩
  | cons f rest ih =>
    obtain ⟨ha, hb'⟩ := bufGone_dispatchFrame s f b h
    obtain ⟨hc, hd⟩ := ih (dispatchFrame s f) ha
    constructor
    · simp only [dispatchAll]
      exact hc
    · simp only [dispatchAll]
      rw [hd, hb']

lemma bufGone_step (s : WireState) (e : Event) (b : Nat) (h : BufGone s b) :
    BufGone (step s e) b ∧ countCbBuffer (step s e).log b = countCbBuffer s.log b := by
  unfold step
  by_cases herr : s.wireErrored = true
  · rw [if_pos herr]
    exact ⟨h, rfl⟩
  · rw [if_neg herr]
    cases e with
    | mapReadAsync b0 o sz u => exact bufGone_doMapAsync s .read b0 o sz u b h
    | mapWriteAsync b0 o sz u => exact bufGone_doMapAsync s .write b0 o sz u b h
    | unmapBuffer b0 => exact bufGone_doUnmap s b0 b h
    | releaseBuffer b0 => exact bufGone_doRelease s b0 b h
    | writeStaging b0 bytes => exact bufGone_doWriteStaging s b0 bytes b h
    | flushClient => exact ⟨h, rfl⟩
    | flushServer =>
      obtain ⟨h1, h2⟩ := h
      exact bufGone_dispatchAll _ _ b ⟨h1, h2⟩
    | teardown =>
      obtain ⟨h1, h2⟩ := h
      refine ⟨⟨h1, fun pm hm => absurd hm (List.not_mem_nil _)⟩, ?_⟩
      show countCbBuffer (s.log ++ unknownCallbacks s.registry) b = countCbBuffer s.log b
      rw [countCbBuffer_append, countCbBuffer_unknown_zero s.registry b h2]
      omega

lemma bufGone_run (s : WireState) (es : List Event) (b : Nat) (h : BufGone s b) :
    countCbBuffer (run s es).log b = countCbBuffer s.log b := by
  induction es generalizing s with
  | nil => rfl
  | cons e rest ih =>
    obtain ⟨h1, h2⟩ := bufGone_step s e b h
    rw [run, ih (step s e) h1, h2]

end ReleaseLemmas

/-- C2: In the happy read path - MapReadAsync(offset 40, size 4, userdata
8653) on the successfully created buffer, the server answering Success with
the four-byte payload holding 31337, then a flush - the callback fires exactly
once with status Success, a pointer whose pointee decodes to 31337 and
userdata 8653; after the subsequent Unmap no further callback fires and
exactly one native unmap command reaches the server. -/
theorem happy_read_scenario :
    (run initState [.mapReadAsync 1 40 4 8653, .flushClient, .flushServer]).log =
        [⟨1, 0, 8653, .success, some [105, 122, 0, 0]⟩] ∧
      le32 [105, 122, 0, 0] = 31337 ∧
      (run initState [.mapReadAsync 1 40 4 8653, .flushClient, .flushServer,
          .unmapBuffer 1, .flushClient]).log =
        [⟨1, 0, 8653, .success, some [105, 122, 0, 0]⟩] ∧
      nativeUnmapCount (run initState [.mapReadAsync 1 40 4 8653, .flushClient,
          .flushServer, .unmapBuffer 1, .flushClient]) 1 = 1 := by
  decide

/-- C3: If the client calls Unmap while a map request is InFlight and a server
Success completion for it is already queued but not yet dispatched, the
callback fires exactly once with status Unknown and a null pointer before
Unmap returns, and the late Success frame delivered during the following
FlushServer is dropped without a second callback - for read and write maps
alike. -/
theorem unmap_races_server_success :
    (run initState [.mapReadAsync 1 40 4 8657, .flushClient]).inbound =
        [⟨1, 0, .success, [105, 122, 0, 0]⟩] ∧
      (run initState [.mapReadAsync 1 40 4 8657, .flushClient, .unmapBuffer 1]).log =
        [⟨1, 0, 8657, .unknown, none⟩] ∧
      (run initState [.mapReadAsync 1 40 4 8657, .flushClient, .unmapBuffer 1,
          .flushServer]).log =
        [⟨1, 0, 8657, .unknown, none⟩] ∧
      (run initState [.mapWriteAsync 1 40 4 8657, .flushClient]).inbound =
        [⟨1, 0, .success, []⟩] ∧
      (run initState [.mapWriteAsync 1 40 4 8657, .flushClient, .unmapBuffer 1]).log =
        [⟨1, 0, 8657, .unknown, none⟩] ∧
      (run initState [.mapWriteAsync 1 40 4 8657, .flushClient, .unmapBuffer 1,
          .flushServer]).log =
        [⟨1, 0, 8657, .unknown, none⟩] := by
  decide

/-- C4: When Release is called on a buffer with a PendingMap still InFlight,
the request's callback is invoked with status Unknown and a null pointer
locally as part of the Release call (no callback fired before it, one Unknown
callback the moment Release returns), and after Release returns no callback
for that buffer ever fires again, whatever events follow. -/
theorem release_before_completion :
    (run initState [.mapReadAsync 2 40 4 8656]).log = [] ∧
      (run initState [.mapReadAsync 2 40 4 8656, .releaseBuffer 2]).log =
        [⟨2, 0, 8656, .unknown, none⟩] ∧
      (run initState [.mapWriteAsync 2 40 4 8656, .releaseBuffer 2]).log =
        [⟨2, 0, 8656, .unknown, none⟩] ∧
      ∀ es : List Event,
        countCbBuffer (run (run initState
          [.mapReadAsync 2 40 4 8656, .releaseBuffer 2]) es).log 2 = 1 := by
  refine ⟨by decide, by decide, by decide, ?_⟩
  intro es
  have hg : BufGone (run initState [.mapReadAsync 2 40 4 8656, .releaseBuffer 2]) 2 :=
    ⟨by decide, by decide⟩
  rw [bufGone_run _ es 2 hg]
  decide

/-- C5: For a successfully delivered write map the callback receives a
pointer to a zero-initialized client-side staging region of the requested
size, regardless of the buffer's prior server-side contents (which hold
31337), and the bytes the user writes through that pointer before Unmap are
exactly the bytes the server observes in its buffer once the Unmap command is
flushed. -/
theorem write_map_staging_roundtrip (b0 b1 b2 b3 : Nat) :
    (run initState [.mapWriteAsync 1 40 4 8653, .flushClient, .flushServer]).log =
        [⟨1, 0, 8653, .success, some [0, 0, 0, 0]⟩] ∧
      serverSlice (run initState [.mapWriteAsync 1 40 4 8653, .flushClient,
          .flushServer]) 1 40 4 = [105, 122, 0, 0] ∧
      serverSlice (run initState [.mapWriteAsync 1 40 4 8653, .flushClient,
          .flushServer, .writeStaging 1 [b0, b1, b2, b3], .unmapBuffer 1,
          .flushClient]) 1 40 4 = [b0, b1, b2, b3] ∧
      (run initState [.mapWriteAsync 1 40 4 8653, .flushClient, .flushServer,
          .writeStaging 1 [b0, b1, b2, b3], .unmapBuffer 1, .flushClient]).log =
        [⟨1, 0, 8653, .success, some [0, 0, 0, 0]⟩] :=
  ⟨by decide, by decide, rfl, rfl⟩

/-- C6: If the user callback of a successful map completion itself calls
Unmap (or Release) on the same buffer, the reentrant call runs against the
state the dispatcher left after removing the registry slot and logging the
callback, so it finds no PendingMap: no second callback fires, and in the
reentrant-Unmap case exactly one native unmap command reaches the server. -/
theorem reentrant_unmap_release_single_callback :
    (run initState [.mapReadAsync 1 40 4 2039, .flushClient, .flushServer]).log =
        [⟨1, 0, 2039, .success, some [105, 122, 0, 0]⟩] ∧
      (run initState [.mapReadAsync 1 40 4 2039, .flushClient, .flushServer]).registry =
        [] ∧
      (run initState [.mapReadAsync 1 40 4 2039, .flushClient, .flushServer,
          .unmapBuffer 1]).log =
        [⟨1, 0, 2039, .success, some [105, 122, 0, 0]⟩] ∧
      nativeUnmapCount (run initState [.mapReadAsync 1 40 4 2039, .flushClient,
          .flushServer, .unmapBuffer 1, .flushClient]) 1 = 1 ∧
      (run initState [.mapWriteAsync 1 40 4 2039, .flushClient, .flushServer,
          .releaseBuffer 1]).log =
        [⟨1, 0, 2039, .success, some [0, 0, 0, 0]⟩] := by
  decide

/-- C7: A MapReadAsync or MapWriteAsync on a buffer whose server-side
creation failed results in the callback firing exactly once with status Error
and a null pointer; the Error is synthesized locally by the client - no map
command is sent, and flushing leaves the server untouched, so no completion
frame comes from the server for that request. -/
theorem error_buffer_map_client_synthesized_error :
    (run initState [.mapReadAsync 2 40 4 8655]).outbound = [] ∧
      (run initState [.mapReadAsync 2 40 4 8655]).inbound =
        [⟨2, 0, .error, []⟩] ∧
      (run initState [.mapReadAsync 2 40 4 8655, .flushClient]).serverBuffers =
        initState.serverBuffers ∧
      (run initState [.mapReadAsync 2 40 4 8655, .flushClient, .flushServer]).log =
        [⟨2, 0, 8655, .error, none⟩] ∧
      (run initState [.mapWriteAsync 2 40 4 8655, .flushClient, .flushServer]).log =
        [⟨2, 0, 8655, .error, none⟩] := by
  decide

/-- C8: A second MapReadAsync or MapWriteAsync issued while the buffer is
already mapped still allocates a registry slot and enqueues a wire request,
the second request's completion is Error with a null pointer delivered
exactly once, and the earlier request's Success completion stays matched to
its own slot and userdata. -/
theorem second_map_while_mapped_gets_error :
    (run initState [.mapReadAsync 1 40 4 34098, .flushClient, .flushServer,
        .mapReadAsync 1 40 4 34099]).registry =
        [⟨1, 1, 40, 4, .read, 34099⟩] ∧
      (run initState [.mapReadAsync 1 40 4 34098, .flushClient, .flushServer,
          .mapReadAsync 1 40 4 34099]).outbound =
        [.mapRead 1 1 40 4] ∧
      (run initState [.mapReadAsync 1 40 4 34098, .flushClient, .flushServer,
          .mapReadAsync 1 40 4 34099, .flushClient, .flushServer]).log =
        [⟨1, 0, 34098, .success, some [105, 122, 0, 0]⟩,
         ⟨1, 1, 34099, .error, none⟩] ∧
      (run initState [.mapWriteAsync 1 40 4 34098, .flushClient, .flushServer,
          .mapWriteAsync 1 40 4 34099, .flushClient, .flushServer]).log =
        [⟨1, 0, 34098, .success, some [0, 0, 0, 0]⟩,
         ⟨1, 1, 34099, .error, none⟩] := by
  decide

/-- C9: Calling Unmap on an error buffer after its map completion has already
been synthesized and delivered locally is a no-op: the wire state - client
proxies, registry, log, both queues, and the server - is exactly unchanged,
so no BufferUnmap frame is sent, no native unmap happens, and no callback
fires.  This holds for the read and the write variant of the scenario. -/
theorem unmap_error_buffer_noop :
    step (run initState [.mapReadAsync 2 40 4 8655, .flushClient, .flushServer])
        (.unmapBuffer 2) =
      run initState [.mapReadAsync 2 40 4 8655, .flushClient, .flushServer] ∧
    step (run initState [.mapWriteAsync 2 40 4 8655, .flushClient, .flushServer])
        (.unmapBuffer 2) =
      run initState [.mapWriteAsync 2 40 4 8655, .flushClient, .flushServer] := by
  decide

end DawnWire

namespace Vulkan

/-- C10: For the Vulkan backend destructors owning a handle (RenderPipeline,
ShaderModule): with a VK_NULL_HANDLE the destructor performs no reclamation
action at all; otherwise it enqueues the handle on the fenced deleter via
DeleteWhenUnused exactly once and nulls the stored handle, so the handle is
never destroyed synchronously and running the destructor body again would
never enqueue it twice. -/
theorem vulkan_dtor_fenced_deletion_exactly_once (st : DtorState) :
    (st.mHandle = VK_NULL_HANDLE →
      renderPipelineDtor st = st ∧ shaderModuleDtor st = st) ∧
    (st.mHandle ≠ VK_NULL_HANDLE →
      (renderPipelineDtor st).deleter.queue = st.deleter.queue ++ [st.mHandle] ∧
      (renderPipelineDtor st).mHandle = VK_NULL_HANDLE ∧
      (renderPipelineDtor st).destroyedNow = st.destroyedNow ∧
      renderPipelineDtor (renderPipelineDtor st) = renderPipelineDtor st ∧
      shaderModuleDtor st = renderPipelineDtor st ∧
      shaderModuleDtor (shaderModuleDtor st) = shaderModuleDtor st) := by
  constructor
  · intro h0
    constructor
    · unfold renderPipelineDtor
      rw [if_neg (by simp [h0])]
    · unfold shaderModuleDtor
      rw [if_neg (by simp [h0])]
  · intro hne
    have hrp : renderPipelineDtor st =
        { st with deleter := DeleteWhenUnused st.deleter st.mHandle,
                  mHandle := VK_NULL_HANDLE } := by
      unfold renderPipelineDtor
      rw [if_pos hne]
    have hsm : shaderModuleDtor st =
        { st with deleter := DeleteWhenUnused st.deleter st.mHandle,
                  mHandle := VK_NULL_HANDLE } := by
      unfold shaderModuleDtor
      rw [if_pos hne]
    have hagain : renderPipelineDtor
        ({ st with deleter := DeleteWhenUnused st.deleter st.mHandle,
                   mHandle := VK_NULL_HANDLE } : DtorState) =
        { st with deleter := DeleteWhenUnused st.deleter st.mHandle,
                  mHandle := VK_NULL_HANDLE } := by
      unfold renderPipelineDtor
      rw [if_neg (by simp)]
    have hagain2 : shaderModuleDtor
        ({ st with deleter := DeleteWhenUnused st.deleter st.mHandle,
                   mHandle := VK_NULL_HANDLE } : DtorState) =
        { st with deleter := DeleteWhenUnused st.deleter st.mHandle,
                  mHandle := VK_NULL_HANDLE } := by
      unfold shaderModuleDtor
      rw [if_neg (by simp)]
    refine ⟨by rw [hrp]; rfl, by rw [hrp], by rw [hrp], ?_, by rw [hrp, hsm], ?_⟩
    · rw [hrp, hagain]
    · rw [hsm, hagain2]

/-- Witness for C10: both the null-handle case and a live handle 5 over a
deleter already holding handle 7. -/
theorem vulkan_dtor_fenced_deletion_exactly_once_witness :
    ((⟨0, ⟨[7]⟩, []⟩ : DtorState).mHandle = VK_NULL_HANDLE ∧
      (renderPipelineDtor ⟨0, ⟨[7]⟩, []⟩ = ⟨0, ⟨[7]⟩, []⟩ ∧
        shaderModuleDtor ⟨0, ⟨[7]⟩, []⟩ = ⟨0, ⟨[7]⟩, []⟩)) ∧
    ((⟨5, ⟨[7]⟩, []⟩ : DtorState).mHandle ≠ VK_NULL_HANDLE ∧
      ((renderPipelineDtor ⟨5, ⟨[7]⟩, []⟩).deleter.queue = [7] ++ [5] ∧
        (renderPipelineDtor ⟨5, ⟨[7]⟩, []⟩).mHandle = VK_NULL_HANDLE ∧
        (renderPipelineDtor ⟨5, ⟨[7]⟩, []⟩).destroyedNow = [] ∧
        renderPipelineDtor (renderPipelineDtor ⟨5, ⟨[7]⟩, []⟩) =
          renderPipelineDtor ⟨5, ⟨[7]⟩, []⟩ ∧
        shaderModuleDtor ⟨5, ⟨[7]⟩, []⟩ = renderPipelineDtor ⟨5, ⟨[7]⟩, []⟩ ∧
        shaderModuleDtor (shaderModuleDtor ⟨5, ⟨[7]⟩, []⟩) =
          shaderModuleDtor ⟨5, ⟨[7]⟩, []⟩)) :=
  ⟨⟨by decide,
    (vulkan_dtor_fenced_deletion_exactly_once ⟨0, ⟨[7]⟩, []⟩).1 (by decide)⟩,
   ⟨by decide,
    (vulkan_dtor_fenced_deletion_exactly_once ⟨5, ⟨[7]⟩, []⟩).2 (by decide)⟩⟩

end Vulkan
